import Mathlib

/-!
Verification of the Eloqua daily-report pipeline.

This file is a shallow embedding, in Lean 4, of the core of the repository:

* `src/core/rest/fetch_data.py` — the OData pager (`fetch_data`);
* `src/core/bulk/bulk_email_send.py` — the bulk export/sync/poll/download
  client for activity streams (`fetch_activity_export`);
* `src/core/bulk/bulk_bouncebacks.py` — the bulk client for bouncebacks
  (`fetch_bouncebacks_bulk`);
* `src/core/bulk/process_data_bulk.py` — the reconciliation engine
  (`generate_daily_report`, `get_proper_cased_email`, `clean_country_name`).

Python strings are Lean `String`s and are manipulated through their
underlying character lists so that every definition evaluates inside the
kernel.  Timestamps are modelled abstractly: a parsed timestamp is a pair
of a day number and a time-of-day number, and the date parser
(`dateutil` / `pandas.to_datetime`, timezone normalization included) is a
parameter `parseTs : String → Option Ts` of the pipeline.  Missing or
falsy string fields are the empty string, mirroring the `dict.get(k, "")`
convention used throughout the source.  Rates, which the source computes
with Python floats over the values {0, 1, 100}, are modelled with `ℚ`
(exact for these values).  Configuration constants imported from the
repository's `config` module (page sizes, poll bounds, exclusion lists)
are parameters of the corresponding functions.
-/

/-! ### Generic helpers (dictionaries, sets, sorting, strings) -/

/-- Lookup in an association list, first match wins (Python `dict.get`
for dictionaries built with first-wins insertion). -/
def dlookup {α : Type} (l : List (String × α)) (k : String) : Option α :=
  (l.find? (fun p => decide (p.1 = k))).map (·.2)

/-- Python `d[k] = v`: replace the value in place if the key exists,
else append (insertion order preserved). -/
def dset {α : Type} (l : List (String × α)) (k : String) (v : α) : List (String × α) :=
  if (l.find? (fun p => decide (p.1 = k))).isSome then
    l.map (fun p => if p.1 = k then (k, v) else p)
  else l ++ [(k, v)]

/-- Keep-first deduplication with an explicit `seen` accumulator; models a
Python `set` built by sequential insertion. -/
def dedupAcc {α : Type} [DecidableEq α] (seen : List α) : List α → List α
  | [] => []
  | a :: rest => if a ∈ seen then dedupAcc seen rest else a :: dedupAcc (a :: seen) rest

/-- The set of elements of `l`, as a duplicate-free list in first-occurrence
order. -/
def pyset {α : Type} [DecidableEq α] (l : List α) : List α := dedupAcc [] l

theorem mem_dedupAcc {α : Type} [DecidableEq α] {a : α} :
    ∀ {l seen : List α}, a ∈ dedupAcc seen l ↔ a ∈ l ∧ a ∉ seen := by
  intro l
  induction l with
  | nil => intro seen; simp [dedupAcc]
  | cons b rest ih =>
    intro seen
    by_cases hb : b ∈ seen
    · simp only [dedupAcc, if_pos hb, ih, List.mem_cons]
      constructor
      · rintro ⟨h1, h2⟩; exact ⟨Or.inr h1, h2⟩
      · rintro ⟨h1 | h1, h2⟩
        · exact absurd (h1 ▸ hb) h2
        · exact ⟨h1, h2⟩
    · simp only [dedupAcc, if_neg hb, List.mem_cons, ih]
      constructor
      · rintro (rfl | ⟨h1, h2⟩)
        · exact ⟨Or.inl rfl, hb⟩
        · constructor
          · exact Or.inr h1
          · intro hc; exact h2 (Or.inr hc)
      · rintro ⟨rfl | h1, h2⟩
        · exact Or.inl rfl
        · by_cases hba : a = b
          · exact Or.inl hba
          · refine Or.inr ⟨h1, ?_⟩
            rintro (h | h)
            · exact hba h
            · exact h2 h

theorem mem_pyset {α : Type} [DecidableEq α] {a : α} {l : List α} :
    a ∈ pyset l ↔ a ∈ l := by
  simp [pyset, mem_dedupAcc]

theorem nodup_dedupAcc {α : Type} [DecidableEq α] :
    ∀ {l seen : List α}, (dedupAcc seen l).Pairwise (· ≠ ·) := by
  intro l
  induction l with
  | nil => intro seen; simp [dedupAcc]
  | cons b rest ih =>
    intro seen
    by_cases hb : b ∈ seen
    · simpa [dedupAcc, if_pos hb] using ih
    · simp only [dedupAcc, if_neg hb]
      refine List.Pairwise.cons ?_ ih
      intro x hx hbx
      have := (mem_dedupAcc.mp hx).2
      exact this (hbx ▸ List.mem_cons_self b seen)

theorem nodup_pyset {α : Type} [DecidableEq α] {l : List α} :
    (pyset l).Pairwise (· ≠ ·) := nodup_dedupAcc

/-- Insertion sort with a boolean "less or equal" test; models
`DataFrame.sort_values` (whose tie order the source does not rely on). -/
def insertSorted {α : Type} (le : α → α → Bool) (a : α) : List α → List α
  | [] => [a]
  | b :: rest => if le a b then a :: b :: rest else b :: insertSorted le a rest

def sortBy {α : Type} (le : α → α → Bool) : List α → List α
  | [] => []
  | a :: rest => insertSorted le a (sortBy le rest)

theorem mem_insertSorted {α : Type} {le : α → α → Bool} {x a : α} :
    ∀ {l : List α}, x ∈ insertSorted le a l ↔ x = a ∨ x ∈ l := by
  intro l
  induction l with
  | nil => simp [insertSorted]
  | cons b rest ih =>
    by_cases h : le a b
    · simp [insertSorted, h, List.mem_cons]
    · simp only [insertSorted, if_neg h, List.mem_cons, ih]
      tauto

theorem mem_sortBy {α : Type} {le : α → α → Bool} {x : α} :
    ∀ {l : List α}, x ∈ sortBy le l ↔ x ∈ l := by
  intro l
  induction l with
  | nil => simp [sortBy]
  | cons b rest ih => simp [sortBy, mem_insertSorted, List.mem_cons, ih]

/-- Is `p` an initial segment of `l`?  (Character-list helper for
substring matching.) -/
def startsList : List Char → List Char → Bool
  | [], _ => true
  | _ :: _, [] => false
  | a :: as, b :: bs => decide (a = b) && startsList as bs

/-- Does `l` contain `p` as a contiguous sublist?  Models Python's
`p in s` on strings (note `"" in s` is `True`). -/
def containsList : List Char → List Char → Bool
  | l, [] => (fun _ => true) l
  | [], _ :: _ => false
  | a :: as, b :: bs => startsList (b :: bs) (a :: as) || containsList as (b :: bs)

/-- Python `p in s` for strings. -/
def strContains (s p : String) : Bool := containsList s.data p.data

/-- Python `str.lower()` (character-wise). -/
def str_lower (s : String) : String := String.mk (s.data.map Char.toLower)

def isSpaceChar (c : Char) : Bool :=
  decide (c = ' ') || decide (c = '\t') || decide (c = '\n') || decide (c = '\r')

/-- Python `str.strip()`. -/
def str_trim (s : String) : String :=
  String.mk (((s.data.dropWhile isSpaceChar).reverse.dropWhile isSpaceChar).reverse)

def digitVal (c : Char) : Option Nat :=
  if c = '0' then some 0 else if c = '1' then some 1 else if c = '2' then some 2
  else if c = '3' then some 3 else if c = '4' then some 4 else if c = '5' then some 5
  else if c = '6' then some 6 else if c = '7' then some 7 else if c = '8' then some 8
  else if c = '9' then some 9 else none

def digitsToNat : List Char → Nat → Option Nat
  | [], acc => some acc
  | c :: rest, acc =>
    match digitVal c with
    | some d => digitsToNat rest (acc * 10 + d)
    | none => none

/-- Parse a nonempty all-digit string (Python `str.isdigit()` plus `int(s)`,
and `pd.to_numeric` on the id strings this pipeline handles). -/
def str_toNat (s : String) : Option Nat :=
  if s.data.isEmpty then none else digitsToNat s.data 0

/-- Python `int(s)` allowing a leading minus sign. -/
def str_toInt (s : String) : Option Int :=
  match s.data with
  | '-' :: rest =>
    if rest.isEmpty then none else (digitsToNat rest 0).map (fun n => -(n : Int))
  | _ => (str_toNat s).map (fun n => (n : Int))

theorem str_lower_ne_empty {s : String} (h : s ≠ "") : str_lower s ≠ "" := by
  intro hc
  apply h
  have hd : (str_lower s).data = [] := by rw [hc]
  simp only [str_lower] at hd
  have : s.data = [] := by
    cases hmap : s.data.map Char.toLower with
    | nil => exact List.map_eq_nil_iff.mp hmap
    | cons c cs => rw [hmap] at hd; cases hd
  cases s with
  | mk d => simp_all

/-! ### Timestamps -/

/-- An abstract parsed timestamp: day number (the value pandas'
`.dt.date` compares) and a time-of-day used only for ordering within a
day. -/
structure Ts where
  day : Int
  tod : Int
deriving DecidableEq

/-- Chronological order on parsed timestamps. -/
def tsLe (a b : Ts) : Bool :=
  decide (a.day < b.day) || (decide (a.day = b.day) && decide (a.tod ≤ b.tod))

/-! ### The OData pager — `src/core/rest/fetch_data.py`, `fetch_data` (lines 235–294)

The server is a function from page number to an optional page of records
(`none` models a request that raises, i.e. the `except` branch at lines
290–292).  `API_PAGE_SIZE` and `API_MAX_PAGES` come from the external
`config` module and are parameters.  The loop variable `page` starts at 1
and increases only while `page < API_MAX_PAGES`, which is the termination
measure. -/

def fetchDataAux {α : Type} (pages : Nat → Option (List α)) (pageSize maxPages : Nat)
    (acc : List α) (page : Nat) : List α :=
  match pages page with
  | none => acc
  | some elements =>
    if elements.isEmpty then acc
    else
      let acc2 := acc ++ elements
      if h : maxPages ≤ page then acc2
      else if elements.length < pageSize then acc2
      else fetchDataAux pages pageSize maxPages acc2 (page + 1)
termination_by maxPages - page
decreasing_by omega

/-- `fetch_data(endpoint, ...)`: paginate from page 1, accumulating
`all_data`. -/
def fetch_data {α : Type} (pages : Nat → Option (List α)) (pageSize maxPages : Nat) : List α :=
  fetchDataAux pages pageSize maxPages [] 1

/-! ### The bulk sync client

`src/core/bulk/bulk_email_send.py`, `fetch_activity_export` (poll: lines
99–116, download: lines 128–157) and `src/core/bulk/bulk_bouncebacks.py`,
`fetch_bouncebacks_bulk` (poll: lines 77–88, download: lines 98–128).

The vendor's poll endpoint is a function from attempt index to status
string; the download endpoint is a list of page responses consumed one
per request. -/

/-- Poll loop of `fetch_activity_export`: checks `success` first, then
`error` (which aborts), otherwise keeps polling; `false` means the fetch
returns `[]`.  `remaining` counts the attempts left out of
`SYNC_MAX_ATTEMPTS`. -/
def pollActivityAux (status : Nat → String) : Nat → Nat → Bool
  | _, 0 => false
  | attempt, n + 1 =>
    if status attempt = "success" then true
    else if status attempt = "error" then false
    else pollActivityAux status (attempt + 1) n

/-- Poll loop of `fetch_bouncebacks_bulk`: only `success` is checked; any
other status (including `error`) just consumes an attempt. -/
def pollBBAux (status : Nat → String) : Nat → Nat → Bool
  | _, 0 => false
  | attempt, n + 1 =>
    if status attempt = "success" then true
    else pollBBAux status (attempt + 1) n

/-- One response of the paginated sync-data endpoint: an HTTP failure
(non-200), an unparsable body, or a JSON page with `items` and
`hasMore`. -/
inductive PageResp (α : Type) where
  | httpFail : PageResp α
  | badJson : PageResp α
  | page : List α → Bool → PageResp α
deriving DecidableEq

/-- Download loop of `fetch_activity_export` (lines 134–154): on a non-200
response or a JSON parse error the loop breaks immediately — the items
accumulated so far are what the function returns; a parsed page is
accumulated and the loop continues iff `hasMore`.  An exhausted response
list returns the accumulation (the modelled server always answered by
then in every theorem below). -/
def downloadActivityAux {α : Type} (acc : List α) : List (PageResp α) → List α
  | [] => acc
  | PageResp.httpFail :: _ => acc
  | PageResp.badJson :: _ => acc
  | PageResp.page items hasMore :: rest =>
    if hasMore then downloadActivityAux (acc ++ items) rest else acc ++ items

def downloadActivityPages {α : Type} (resps : List (PageResp α)) : List α :=
  downloadActivityAux [] resps

/-- `fetch_activity_export`: poll, then download on success, else return
`[]` (lines 108–116). -/
def fetch_activity_export {α : Type} (status : Nat → String) (maxAttempts : Nat)
    (resps : List (PageResp α)) : List α :=
  if pollActivityAux status 0 maxAttempts then downloadActivityPages resps else []

/-- Download loop of `fetch_bouncebacks_bulk` (lines 102–121): `none` is a
failed page (non-200 or parse error) — break, returning the accumulation;
a page shorter than `limit` ends the pagination. -/
def downloadBBAux {α : Type} (limit : Nat) (acc : List α) : List (Option (List α)) → List α
  | [] => acc
  | none :: _ => acc
  | some items :: rest =>
    if items.length < limit then acc ++ items else downloadBBAux limit (acc ++ items) rest

def downloadBBPages {α : Type} (limit : Nat) (resps : List (Option (List α))) : List α :=
  downloadBBAux limit [] resps

/-- `fetch_bouncebacks_bulk`: poll (success-only check), then download on
success, else return `[]` (lines 78–88). -/
def fetch_bouncebacks_bulk {α : Type} (status : Nat → String) (maxAttempts limit : Nat)
    (resps : List (Option (List α))) : List α :=
  if pollBBAux status 0 maxAttempts then downloadBBPages limit resps else []

/-! ### Data model of the reconciliation engine

One record type per stream, mirroring the field aliases requested in the
bulk export definitions and the OData queries.  The source probes raw
dicts with several alternate key spellings (`contactID` / `ContactId` /
`contactId`); the embedding resolves that variance into one field. -/

/-- One `EmailSend` activity record as exported by `fetch_activity_export`
(field map at `bulk_email_send.py` lines 59–75).  `campaignId` and
`externalId` are `""` when the vendor omitted them (Python falsy). -/
structure SendRec where
  assetId : String
  contactId : String
  emailSendType : String
  activityDate : String
  campaignId : String
  externalId : String
  emailAddress : String
  assetName : String
  subjectLine : String
  contact_country : String
  contact_hp_role : String
  contact_hp_partner_id : String
  contact_partner_name : String
  contact_market : String
deriving DecidableEq

/-- One bounceback record (`bulk_bouncebacks.py` field map).
`isHardBounceback` is `none` when the field is missing or not a boolean
(then neither `== True` nor `== False` matches in the source). -/
structure BBRec where
  assetId : String
  contactId : String
  isHardBounceback : Option Bool
deriving DecidableEq

/-- One email-open activity record (OData `email_opens` stream). -/
structure OpenRec where
  assetId : String
  contactId : String
  openDateHour : String
  emailAddress : String
deriving DecidableEq

/-- One email-clickthrough activity record (OData stream). -/
structure ClickRec where
  assetId : String
  contactId : String
deriving DecidableEq

/-- One email-asset reference record (OData `email_asset_data` stream).
`emailCreatedByUserID = 0` models a missing/falsy creator id. -/
structure AssetRec where
  emailID : String
  emailName : String
  emailGroup : String
  subject : String
  emailCreatedByUserID : Int
deriving DecidableEq

/-- One campaign-analysis record; `eloquaCampaignId = 0` is falsy and the
record is then skipped when building `campaign_map`. -/
structure CampaignRec where
  eloquaCampaignId : Int
  campaignCreatedByUserId : Int
deriving DecidableEq

/-- One campaign-user record; `userID = 0` is falsy. -/
structure UserRec where
  userID : Int
  userName : String
deriving DecidableEq

/-- One cached contact record (`fetch_data.py`, `fetch_contact_by_id`
lines 119–126: all six keys are always present, possibly `""`). -/
structure ContactRec where
  emailAddress : String
  country : String
  hp_role : String
  hp_partner_id : String
  partner_name : String
  market : String
deriving DecidableEq

/-- A value of `contact_lookup` (`process_data_bulk.py` lines 153–160). -/
structure ContactInfo where
  emailAddress : String
  contact_country : String
  contact_hp_role : String
  contact_hp_partner_id : String
  contact_partner_name : String
  contact_market : String
deriving DecidableEq

def ContactInfo.empty : ContactInfo := ⟨"", "", "", "", "", ""⟩

/-- A row of the working DataFrame `df_sends`.  Columns appear as the
pipeline adds them; fields not yet computed at a given stage hold their
initialization value and are only read after the stage that sets them. -/
structure Row where
  assetId_str : String
  contactId_str : String
  assetName : String
  subjectLine : String
  emailAddress : String
  contact_country : String
  contact_hp_role : String
  contact_hp_partner_id : String
  contact_partner_name : String
  contact_market : String
  emailSendType : String
  campaignId : String
  externalId : String
  assetId_int : Option Int
  activityDateParsed : Ts
  hard : Nat
  soft : Nat
  total_bb : Nat
  total_clicks : Nat
  total_opens : Nat
  firstOpenDate : Option Ts
  lastActivatedBy : String
  emailGroup : String
  totalSends : Nat
  totalDelivered : Nat
  uniqueOpens : Nat
  uniqueClicks : Nat
  hardBBRate : ℚ
  softBBRate : ℚ
  bbRate : ℚ
  deliveredRate : ℚ
  uniqueOpenRate : ℚ
  clickthroughRate : ℚ
  uniqueClickthroughRate : ℚ
deriving DecidableEq

instance : Inhabited Row :=
  ⟨{ assetId_str := "", contactId_str := "", assetName := "", subjectLine := "",
     emailAddress := "", contact_country := "", contact_hp_role := "",
     contact_hp_partner_id := "", contact_partner_name := "", contact_market := "",
     emailSendType := "", campaignId := "", externalId := "", assetId_int := none,
     activityDateParsed := ⟨0, 0⟩, hard := 0, soft := 0, total_bb := 0,
     total_clicks := 0, total_opens := 0, firstOpenDate := none,
     lastActivatedBy := "", emailGroup := "", totalSends := 0, totalDelivered := 0,
     uniqueOpens := 0, uniqueClicks := 0, hardBBRate := 0, softBBRate := 0,
     bbRate := 0, deliveredRate := 0, uniqueOpenRate := 0, clickthroughRate := 0,
     uniqueClickthroughRate := 0 }⟩

def rowKey (r : Row) : String × String := (r.assetId_str, r.contactId_str)

/-- Configuration constants imported from the external `config` module. -/
structure Cfg where
  excludeEmailDomain : String
  excludeTestEmails : List String
  excludedCampaignIds : List String

/-- External collaborators of `generate_daily_report`: the date parser,
the persistent contact cache as loaded (`load_contact_cache`), and the
live per-contact fetch used for forward contacts missing from the cache
(`fetch_contacts_batch` with `use_cache=False`; its result only contains
the ids it could resolve). -/
structure Env where
  parseTs : String → Option Ts
  contactCache : List (String × ContactRec)
  fetchContacts : List String → List (String × ContactRec)

/-- All fetched streams, after the unwrapping at `process_data_bulk.py`
lines 85–97. -/
structure Inputs where
  emailSends : List SendRec
  bouncebacks : List BBRec
  emailClickthroughs : List ClickRec
  emailOpens : List OpenRec
  emailAssetData : List AssetRec
  campaignAnalysis : List CampaignRec
  campaignUsers : List UserRec

/-! ### Step 1 — helper maps (`process_data_bulk.py` lines 104–162) -/

/-- `clean_country_name` (lines 27–46). -/
def clean_country_name (country : String) : String :=
  if country = "" then country
  else
    let cleaned := str_trim country
    let cleaned := if startsList ['H', 'P', ' '] cleaned.data
      then str_trim (String.mk (cleaned.data.drop 3)) else cleaned
    if cleaned = "US" then "USA"
    else if cleaned = "UK" then "United Kingdom"
    else cleaned

/-- The `email_*_map` dictionaries (lines 116–127): keyed by
`int(item["emailID"])` over items with a truthy `emailID`; later items
overwrite earlier ones, so the last matching asset wins. -/
def assetFieldMap (proj : AssetRec → String) (assets : List AssetRec) (n : Int) : String :=
  match (assets.filter (fun a =>
      decide (a.emailID ≠ "") && decide ((str_toNat a.emailID).map (fun m => (m : Int)) = some n))).getLast? with
  | some a => proj a
  | none => ""

def emailNameMap (assets : List AssetRec) (n : Int) : String :=
  assetFieldMap (·.emailName) assets n

def emailGroupMap (assets : List AssetRec) (n : Int) : String :=
  assetFieldMap (·.emailGroup) assets n

def emailSubjectMap (assets : List AssetRec) (n : Int) : String :=
  assetFieldMap (·.subject) assets n

/-- `user_map.get(uid, "")` where `user_map` keeps users with a truthy
`userID`, later entries overwriting earlier ones (line 130). -/
def userNameOf (users : List UserRec) (uid : Int) : String :=
  match (users.filter (fun u => decide (u.userID ≠ 0) && decide (u.userID = uid))).getLast? with
  | some u => u.userName
  | none => ""

/-- `get_user` (lines 861–866): `int(campaign_id)` failures yield `""`. -/
def get_user (campaigns : List CampaignRec) (users : List UserRec) (campaign_id : String) : String :=
  match str_toInt campaign_id with
  | none => ""
  | some n =>
    match (campaigns.filter (fun c =>
        decide (c.eloquaCampaignId ≠ 0) && decide (c.eloquaCampaignId = n))).getLast? with
    | none => ""
    | some c => userNameOf users c.campaignCreatedByUserId

/-- One `contact_lookup` entry built from a send record (lines 144–160):
the email address comes from the cache when the contact is cached (the
cache record always carries the `emailAddress` key), else from the bulk
stream; the country is cleaned; the remaining attributes are the send's
contact snapshot. -/
def infoOfSend (cache : List (String × ContactRec)) (s : SendRec) : ContactInfo :=
  { emailAddress :=
      match dlookup cache s.contactId with
      | some c => c.emailAddress
      | none => s.emailAddress,
    contact_country := clean_country_name s.contact_country,
    contact_hp_role := s.contact_hp_role,
    contact_hp_partner_id := s.contact_hp_partner_id,
    contact_partner_name := s.contact_partner_name,
    contact_market := s.contact_market }

/-- A `contact_lookup` entry built from a cache or live-fetch record
(lines 633–640 and 660–667). -/
def infoOfContactRec (c : ContactRec) : ContactInfo :=
  { emailAddress := c.emailAddress,
    contact_country := clean_country_name c.country,
    contact_hp_role := c.hp_role,
    contact_hp_partner_id := c.hp_partner_id,
    contact_partner_name := c.partner_name,
    contact_market := c.market }

/-- `contact_lookup` as built in step 1 (lines 138–160): iterate the raw
send list; the first send of each nonempty `contactId` wins. -/
def buildContactLookup (cache : List (String × ContactRec)) (sends : List SendRec) :
    List (String × ContactInfo) :=
  sends.foldl (fun acc s =>
    if s.contactId ≠ "" ∧ (dlookup acc s.contactId).isNone then
      acc ++ [(s.contactId, infoOfSend cache s)]
    else acc) []

/-! ### Step 2 — dedup and date filter (lines 164–269) -/

/-- The dedup key (lines 180–204): `externalId` when truthy, else the
compound `(assetId, contactId, emailSendType, activityDate)` key. -/
inductive DKey where
  | ext : String → DKey
  | compound : String → String → String → String → DKey
deriving DecidableEq

def dedupKey (s : SendRec) : DKey :=
  if s.externalId ≠ "" then DKey.ext s.externalId
  else DKey.compound s.assetId s.contactId s.emailSendType s.activityDate

/-- Python `unique_sends_dict[key] = s`: keep the position of the first
insertion, the value of the last. -/
def upsertSend (l : List (DKey × SendRec)) (k : DKey) (v : SendRec) : List (DKey × SendRec) :=
  if (l.find? (fun p => decide (p.1 = k))).isSome then
    l.map (fun p => if p.1 = k then (k, v) else p)
  else l ++ [(k, v)]

/-- `unique_sends_dict` (lines 177–204) followed by taking its values
(line 235). -/
def uniqueSends (sends : List SendRec) : List SendRec :=
  (sends.foldl (fun acc s => upsertSend acc (dedupKey s) s) []).map (·.2)

/-- A fresh `df_sends` row from a send whose `activityDate` parsed
(lines 235–268): key columns stringified, `assetId_int` from
`pd.to_numeric(..., errors='coerce')`, all merge columns at their
fill value. -/
def mkRow (s : SendRec) (t : Ts) : Row :=
  { assetId_str := s.assetId, contactId_str := s.contactId, assetName := s.assetName,
    subjectLine := s.subjectLine, emailAddress := s.emailAddress,
    contact_country := s.contact_country, contact_hp_role := s.contact_hp_role,
    contact_hp_partner_id := s.contact_hp_partner_id,
    contact_partner_name := s.contact_partner_name, contact_market := s.contact_market,
    emailSendType := s.emailSendType, campaignId := s.campaignId,
    externalId := s.externalId,
    assetId_int := (str_toNat s.assetId).map (fun n => (n : Int)),
    activityDateParsed := t, hard := 0, soft := 0, total_bb := 0, total_clicks := 0,
    total_opens := 0, firstOpenDate := none, lastActivatedBy := "", emailGroup := "",
    totalSends := 0, totalDelivered := 0, uniqueOpens := 0, uniqueClicks := 0,
    hardBBRate := 0, softBBRate := 0, bbRate := 0, deliveredRate := 0,
    uniqueOpenRate := 0, clickthroughRate := 0, uniqueClickthroughRate := 0 }

/-- Sends surviving the `campaignId` filter (line 172), dedup, and date
parsing (`dropna` at line 251). -/
def parsedRows (parse : String → Option Ts) (sends : List SendRec) : List Row :=
  (uniqueSends (sends.filter (fun s => decide (s.campaignId ≠ "")))).filterMap
    (fun s => (parse s.activityDate).map (mkRow s))

/-- The target-date filter (line 255). -/
def datedRows (parse : String → Option Ts) (targetDay : Int) (sends : List SendRec) : List Row :=
  (parsedRows parse sends).filter (fun r => decide (r.activityDateParsed.day = targetDay))

/-! ### Step 3 — bouncebacks (lines 271–317) -/

def bbKeyOf (b : BBRec) : String × String := (b.assetId, b.contactId)

/-- The distinct keys of the bounceback stream (the `groupby` index). -/
def bbKeys (bbs : List BBRec) : List (String × String) := pyset (bbs.map bbKeyOf)

/-- `df_bb_counts` (lines 298–309): per-key sums of the `hard`, `soft` and
`total_bb` indicator columns, then each clipped at 1. -/
def bbCounts (bbs : List BBRec) : List ((String × String) × Nat × Nat × Nat) :=
  (bbKeys bbs).map (fun k =>
    let grp := bbs.filter (fun b => decide (bbKeyOf b = k))
    (k, min (grp.countP (fun b => decide (b.isHardBounceback = some true))) 1,
        min (grp.countP (fun b => decide (b.isHardBounceback = some false))) 1,
        min grp.length 1))

/-- The left merge of `df_bb_counts` into `df_sends` (line 311), with the
`fillna(0)` of line 545 folded in (rows without a matching key get 0). -/
def mergeBB (bbs : List BBRec) (rows : List Row) : List Row :=
  if bbs.isEmpty then rows
  else rows.map (fun r =>
    match (bbCounts bbs).find? (fun e => decide (e.1 = rowKey r)) with
    | some e => { r with hard := e.2.1, soft := e.2.2.1, total_bb := e.2.2.2 }
    | none => { r with hard := 0, soft := 0, total_bb := 0 })

/-! ### Step 4 — clicks (lines 319–363) -/

def clickKeyOf (c : ClickRec) : String × String := (c.assetId, c.contactId)

def clickCount (clicks : List ClickRec) (k : String × String) : Nat :=
  (clicks.filter (fun c => decide (clickKeyOf c = k))).length

/-- Merge of `df_click_counts` (line 345), then the last-send assignment
(lines 347–355): sort by `activityDateParsed`, keep the click count only
on the last row of each `(assetId, contactId)` group, zero it elsewhere.
Skipped entirely when the click stream is empty. -/
def mergeClicks (clicks : List ClickRec) (rows : List Row) : List Row :=
  if clicks.isEmpty then rows
  else
    let merged := rows.map (fun r => { r with total_clicks := clickCount clicks (rowKey r) })
    let sorted := sortBy (fun a b => tsLe a.activityDateParsed b.activityDateParsed) merged
    let idx := sorted.enum
    idx.map (fun p =>
      if (idx.drop (p.1 + 1)).any (fun q => decide (rowKey q.2 = rowKey p.2))
      then { p.2 with total_clicks := 0 } else p.2)

/-! ### Step 5 — opens (lines 365–528) -/

def openKeyOf (o : OpenRec) : String × String := (o.assetId, o.contactId)

def openCount (opens : List OpenRec) (k : String × String) : Nat :=
  (opens.filter (fun o => decide (openKeyOf o = k))).length

/-- `'openDateHour': 'min'` aggregates the raw string column, so the
minimum is lexicographic on the vendor's timestamp strings; the result is
then parsed (line 422). -/
def minString : List String → Option String
  | [] => none
  | s :: rest => some (rest.foldl (fun a b => if b < a then b else a) s)

def firstOpenOf (parse : String → Option Ts) (opens : List OpenRec) (k : String × String) :
    Option Ts :=
  (minString ((opens.filter (fun o => decide (openKeyOf o = k))).map (·.openDateHour))).bind parse

/-- Sort order of line 468: `['assetId_str', 'contactId_str',
'activityDateParsed']` ascending. -/
def rowLe3 (a b : Row) : Bool :=
  if a.assetId_str ≠ b.assetId_str then decide (a.assetId_str < b.assetId_str)
  else if a.contactId_str ≠ b.contactId_str then decide (a.contactId_str < b.contactId_str)
  else tsLe a.activityDateParsed b.activityDateParsed

/-- `assign_opens_to_correct_send` (lines 472–506) over the sorted,
indexed row list: within each `(assetId, contactId)` group (whose merged
`total_opens` and `firstOpenDate` are shared), the chosen row is the last
one dated at or before the first open; a missing first-open date falls
back to the last row of the group, an open earlier than every send to the
first row.  Every other row of the group gets `total_opens := 0`. -/
def chosenOpenIdx (grp : List (Nat × Row)) : Nat :=
  match grp.head? with
  | none => 0
  | some (j0, r0) =>
    match r0.firstOpenDate with
    | none =>
      match grp.getLast? with
      | some p => p.1
      | none => j0
    | some t =>
      match (grp.filter (fun p => tsLe p.2.activityDateParsed t)).getLast? with
      | some p => p.1
      | none => j0

def assignOpens (sorted : List Row) : List Row :=
  let idx := sorted.enum
  idx.map (fun p =>
    if p.2.total_opens = 0 then p.2
    else if p.1 = chosenOpenIdx (idx.filter (fun q => decide (rowKey q.2 = rowKey p.2)))
      then p.2
    else { p.2 with total_opens := 0 })

/-- Steps of lines 367–528: merge the per-key open count and earliest open
timestamp, sort, and reassign the count to the matching send.  Skipped
when the open stream is empty. -/
def mergeOpens (parse : String → Option Ts) (opens : List OpenRec) (rows : List Row) :
    List Row :=
  if opens.isEmpty then rows
  else
    let merged := rows.map (fun r =>
      { r with total_opens := openCount opens (rowKey r),
               firstOpenDate := firstOpenOf parse opens (rowKey r) })
    assignOpens (sortBy rowLe3 merged)

/-! ### Step 5.5 — excluded campaigns (lines 530–538) -/

/-- `df_sends['assetId_int'].astype(str).isin(EXCLUDED_CAMPAIGN_IDS)`:
the numeric rendering of the asset id is compared against the exclusion
list ("nan" for an unparsable id). -/
def excludedRow (cfg : Cfg) (r : Row) : Bool :=
  decide ((match str_toNat r.assetId_str with
    | some n => toString n
    | none => "nan") ∈ cfg.excludedCampaignIds)

/-- `df_sends` just before forward detection: bouncebacks, clicks and
opens merged, excluded campaigns dropped. -/
def preForwardRows (cfg : Cfg) (env : Env) (inp : Inputs) (dated : List Row) : List Row :=
  ((mergeOpens env.parseTs inp.emailOpens
      (mergeClicks inp.emailClickthroughs
        (mergeBB inp.bouncebacks dated))).filter (fun r => !(excludedRow cfg r)))

/-! ### Step 5c — forward detection (lines 548–820) -/

/-- `campaigns_with_sends` (line 554): the distinct asset ids of the
date-filtered send rows. -/
def campaignsWithSends (rows : List Row) : List String := pyset (rows.map (·.assetId_str))

/-- The open stream restricted to campaigns with a send on the target
date (line 565). -/
def opensFiltered (cws : List String) (opens : List OpenRec) : List OpenRec :=
  opens.filter (fun o => decide (o.assetId ∈ cws))

def clicksFiltered (cws : List String) (clicks : List ClickRec) : List ClickRec :=
  clicks.filter (fun c => decide (c.assetId ∈ cws))

/-- `forward_contacts` (lines 551–620): the `(assetId, contactId)` keys of
the campaign-restricted open and click streams minus the sent pairs,
opens-derived keys first. -/
def forwardContacts (cws : List String) (sentPairs : List (String × String))
    (opens : List OpenRec) (clicks : List ClickRec) : List (String × String) :=
  (pyset ((opensFiltered cws opens).map openKeyOf ++ (clicksFiltered cws clicks).map clickKeyOf)).filter
    (fun k => !(decide (k ∈ sentPairs)))

/-- `contact_lookup` after the forward-contact augmentation (lines
624–683): a first pass adds cache hits and collects the ids missing from
the cache (duplicates included, as in the source), a second pass adds
everything the live batch fetch returned. -/
def augmentLookup (env : Env) (fwd : List (String × String))
    (lookup0 : List (String × ContactInfo)) : List (String × ContactInfo) × List String :=
  fwd.foldl (fun acc p =>
    if (dlookup acc.1 p.2).isSome then acc
    else
      match dlookup env.contactCache p.2 with
      | some c => (acc.1 ++ [(p.2, infoOfContactRec c)], acc.2)
      | none => (acc.1, acc.2 ++ [p.2])) (lookup0, [])

def lookupWithForwards (env : Env) (fwd : List (String × String))
    (lookup0 : List (String × ContactInfo)) : List (String × ContactInfo) :=
  let step1 := augmentLookup env fwd lookup0
  (env.fetchContacts step1.2).foldl (fun acc q => dset acc q.1 (infoOfContactRec q.2)) step1.1

/-- A synthetic forward row (lines 773–792): asset metadata from the maps
keyed by `int(asset_id)` (or -1 when not all digits), contact attributes
from `contact_lookup` (empty record when the id is absent), activity
counts from the campaign-restricted aggregates, `sentAt` backfilled from
the campaign's first send row. -/
def mkForwardRow (assetsF : List AssetRec) (lookupA : List (String × ContactInfo))
    (rows4 : List Row) (p : String × String) (oc cc : Nat) : Row :=
  let aInt : Int := match str_toNat p.1 with
    | some n => (n : Int)
    | none => -1
  let ci := (dlookup lookupA p.2).getD ContactInfo.empty
  { assetId_str := p.1, contactId_str := p.2,
    assetName := emailNameMap assetsF aInt, subjectLine := emailSubjectMap assetsF aInt,
    emailAddress := ci.emailAddress, contact_country := ci.contact_country,
    contact_hp_role := ci.contact_hp_role,
    contact_hp_partner_id := ci.contact_hp_partner_id,
    contact_partner_name := ci.contact_partner_name,
    contact_market := ci.contact_market,
    emailSendType := "EmailForward", campaignId := "", externalId := "",
    assetId_int := some aInt,
    activityDateParsed :=
      match (rows4.filter (fun r => decide (r.assetId_str = p.1))).head? with
      | some r => r.activityDateParsed
      | none => ⟨0, 0⟩,
    hard := 0, soft := 0, total_bb := 0, total_clicks := cc, total_opens := oc,
    firstOpenDate := none, lastActivatedBy := "", emailGroup := "", totalSends := 0,
    totalDelivered := 0, uniqueOpens := 0, uniqueClicks := 0, hardBBRate := 0,
    softBBRate := 0, bbRate := 0, deliveredRate := 0, uniqueOpenRate := 0,
    clickthroughRate := 0, uniqueClickthroughRate := 0 }

/-- `forward_rows` (lines 722–792): one synthetic row per forward
candidate, skipping candidates outside `campaigns_with_sends` and
candidates with neither opens nor clicks (both guards are shown below to
never fire on the candidate set the source feeds in). -/
def forwardRows (assetsF : List AssetRec) (lookupA : List (String × ContactInfo))
    (rows4 : List Row) (cws : List String) (opens : List OpenRec) (clicks : List ClickRec)
    (fwd : List (String × String)) : List Row :=
  let opensF := opensFiltered cws opens
  let clicksF := clicksFiltered cws clicks
  fwd.filterMap (fun p =>
    if !(decide (p.1 ∈ cws)) then none
    else
      let oc := openCount opensF p
      let cc := clickCount clicksF p
      if oc = 0 ∧ cc = 0 then none
      else some (mkForwardRow assetsF lookupA rows4 p oc cc))

/-! ### Step 7 — attribution, filters, rates (lines 857–1089) -/

/-- `asset_user_map` (lines 868–886): creators from the asset metadata,
then overridden per asset by the campaign user of each non-forward row. -/
def assetUserMap (assetsF : List AssetRec) (campaigns : List CampaignRec)
    (users : List UserRec) (rows : List Row) : List (String × String) :=
  let m0 := assetsF.foldl (fun acc a =>
    if a.emailID ≠ "" ∧ a.emailCreatedByUserID ≠ 0 then
      let u := userNameOf users a.emailCreatedByUserID
      if u ≠ "" then dset acc a.emailID u else acc
    else acc) []
  rows.foldl (fun acc r =>
    if r.emailSendType ≠ "EmailForward" ∧ r.assetId_str ≠ "" ∧ r.campaignId ≠ "" then
      let u := get_user campaigns users r.campaignId
      if u ≠ "" then dset acc r.assetId_str u else acc
    else acc) m0

/-- `get_user_for_row` applied to every row (lines 891–901). -/
def applyUserRow (aum : List (String × String)) (campaigns : List CampaignRec)
    (users : List UserRec) (r : Row) : Row :=
  { r with lastActivatedBy :=
      if r.emailSendType = "EmailForward" then (dlookup aum r.assetId_str).getD ""
      else get_user campaigns users r.campaignId }

/-- `get_proper_cased_email` (lines 963–970). -/
def get_proper_cased_email (lookupA : List (String × ContactInfo))
    (contact_id lowercase_email : String) : String :=
  let cached := ((dlookup lookupA contact_id).getD ContactInfo.empty).emailAddress
  if cached ≠ "" ∧ str_lower cached = str_lower lowercase_email then cached
  else lowercase_email

/-- Is this row treated as a forward by the rate computations
(lines 981–1034)? -/
def isFwdType (t : String) : Bool := decide (t = "Forwarded") || decide (t = "EmailForward")

/-- Lines 978–1034: `Email Group`, `Total Sends`, `Total Delivered`,
unique counts, and all rate columns.  Bounceback and delivered rates
divide by `Total Sends`, open and click rates by `Total Delivered`;
forwards get 0 everywhere. -/
def computeFields (gm : Int → String) (r : Row) : Row :=
  let fwd := isFwdType r.emailSendType
  let totalSends : Nat := if fwd then 0 else 1
  let totalDelivered : Nat := if fwd then 0 else if r.total_bb = 0 then 1 else 0
  let uo : Nat := if r.total_opens > 0 then 1 else 0
  let uc : Nat := if r.total_clicks > 0 then 1 else 0
  { r with
    emailGroup := match r.assetId_int with
      | none => ""
      | some n => gm n,
    totalSends := totalSends, totalDelivered := totalDelivered,
    uniqueOpens := uo, uniqueClicks := uc,
    hardBBRate := if fwd || decide (totalSends = 0) then 0
      else (r.hard : ℚ) / (totalSends : ℚ) * 100,
    softBBRate := if fwd || decide (totalSends = 0) then 0
      else (r.soft : ℚ) / (totalSends : ℚ) * 100,
    bbRate := if fwd || decide (totalSends = 0) then 0
      else (r.total_bb : ℚ) / (totalSends : ℚ) * 100,
    deliveredRate := if fwd || decide (totalSends = 0) then 0
      else (totalDelivered : ℚ) / (totalSends : ℚ) * 100,
    uniqueOpenRate := if fwd || decide (totalDelivered = 0) then 0
      else (uo : ℚ) / (totalDelivered : ℚ) * 100,
    clickthroughRate := if fwd || decide (totalDelivered = 0) then 0
      else (r.total_clicks : ℚ) / (totalDelivered : ℚ) * 100,
    uniqueClickthroughRate := if fwd || decide (totalDelivered = 0) then 0
      else (uc : ℚ) / (totalDelivered : ℚ) * 100 }

/-- The four row filters of lines 912–956, in order: excluded email
domain, excluded test addresses, incomplete forwards (no email address or
no activity), and forwards whose campaign retains no surviving
`EmailSend` row. -/
def filterRows (cfg : Cfg) (rows : List Row) : List Row :=
  let rows7a := rows.filter (fun r =>
    !(strContains (str_lower r.emailAddress) cfg.excludeEmailDomain))
  let rows7b := rows7a.filter (fun r =>
    !(decide (str_lower r.emailAddress ∈ cfg.excludeTestEmails.map str_lower)))
  let rows7c := rows7b.filter (fun r =>
    !(decide (r.emailSendType = "EmailForward") &&
      (decide (r.emailAddress = "") ||
       (decide (r.total_opens = 0) && decide (r.total_clicks = 0)))))
  let campaignsAfter := pyset
    ((rows7c.filter (fun r => decide (r.emailSendType = "EmailSend"))).map (·.assetId_str))
  rows7c.filter (fun r =>
    !((decide (r.emailSendType = "EmailForward") || decide (r.emailSendType = "Forwarded")) &&
      !(decide (r.assetId_str ∈ campaignsAfter))))

/-- `email_asset_data` after the campaign-exclusion filter of line 113. -/
def assetsFOf (cfg : Cfg) (inp : Inputs) : List AssetRec :=
  inp.emailAssetData.filter (fun a => !(decide (a.emailID ∈ cfg.excludedCampaignIds)))

/-- `df_sends` just before forward detection (alias giving the later
stages a stable name). -/
def rows4Of (cfg : Cfg) (env : Env) (inp : Inputs) (dated : List Row) : List Row :=
  preForwardRows cfg env inp dated

def cwsOf (cfg : Cfg) (env : Env) (inp : Inputs) (dated : List Row) : List String :=
  campaignsWithSends (rows4Of cfg env inp dated)

/-- The forward candidate set of this run. -/
def fwdOf (cfg : Cfg) (env : Env) (inp : Inputs) (dated : List Row) : List (String × String) :=
  forwardContacts (cwsOf cfg env inp dated) ((rows4Of cfg env inp dated).map rowKey)
    inp.emailOpens inp.emailClickthroughs

/-- `contact_lookup` after the forward augmentation of this run. -/
def lookupAOf (cfg : Cfg) (env : Env) (inp : Inputs) (dated : List Row) :
    List (String × ContactInfo) :=
  lookupWithForwards env (fwdOf cfg env inp dated)
    (buildContactLookup env.contactCache inp.emailSends)

def fwdRowsOf (cfg : Cfg) (env : Env) (inp : Inputs) (dated : List Row) : List Row :=
  forwardRows (assetsFOf cfg inp) (lookupAOf cfg env inp dated) (rows4Of cfg env inp dated)
    (cwsOf cfg env inp dated) inp.emailOpens inp.emailClickthroughs (fwdOf cfg env inp dated)

/-- `df_sends` after the forward concat of line 810. -/
def rows5Of (cfg : Cfg) (env : Env) (inp : Inputs) (dated : List Row) : List Row :=
  rows4Of cfg env inp dated ++ fwdRowsOf cfg env inp dated

/-- Rows with `Last Activated by User` applied (line 901). -/
def rows6Of (cfg : Cfg) (env : Env) (inp : Inputs) (dated : List Row) : List Row :=
  (rows5Of cfg env inp dated).map
    (applyUserRow
      (assetUserMap (assetsFOf cfg inp) inp.campaignAnalysis inp.campaignUsers
        (rows5Of cfg env inp dated))
      inp.campaignAnalysis inp.campaignUsers)

/-- Rows surviving the exclusion filters of lines 912–956. -/
def rows7Of (cfg : Cfg) (env : Env) (inp : Inputs) (dated : List Row) : List Row :=
  filterRows cfg (rows6Of cfg env inp dated)

/-- The per-row tail of the pipeline: email re-casing (lines 972–975),
the computed columns (lines 978–1035), and the `Email Address`
lower-casing of the final report frame (line 1088). -/
def finalizeRow (cfg : Cfg) (env : Env) (inp : Inputs) (dated : List Row) (r : Row) : Row :=
  let r8 := { r with emailAddress :=
    get_proper_cased_email (lookupAOf cfg env inp dated) r.contactId_str r.emailAddress }
  let r9 := computeFields (emailGroupMap (assetsFOf cfg inp)) r8
  { r9 with emailAddress := str_lower r9.emailAddress }

/-- The rows of `df_report` for this run (the CSV projection keeps a
fixed column subset of these rows; the embedding keeps the whole row). -/
def reportRows (cfg : Cfg) (env : Env) (inp : Inputs) (dated : List Row) : List Row :=
  (rows7Of cfg env inp dated).map (finalizeRow cfg env inp dated)

/-- `generate_daily_report` (lines 72–1117): `none` is the `return None`
of the source — no CSV file is written on that path, since the
`to_csv` call (lines 1094–1104) is only reached with a nonempty
date-filtered send frame.  `some rows` is the content of the report
written for the target day. -/
def generate_daily_report (cfg : Cfg) (env : Env) (inp : Inputs) (targetDay : Int) :
    Option (List Row) :=
  if inp.emailSends.isEmpty then none
  else if (parsedRows env.parseTs inp.emailSends).isEmpty then none
  else if (datedRows env.parseTs targetDay inp.emailSends).isEmpty then none
  else some (reportRows cfg env inp (datedRows env.parseTs targetDay inp.emailSends))

/-- `sanitize_dataframe_for_csv` on one text field (lines 55–70). -/
def sanitizeField (s : String) : String :=
  str_trim (String.mk (s.data.map (fun c =>
    if c = '\t' ∨ c = '\n' ∨ c = '\r' then ' ' else c)))

/-! ### Structural lemmas about the pipeline -/

theorem filterMap_eq_map_of_some {α β : Type} {f : α → Option β} {g : α → β} :
    ∀ {l : List α}, (∀ a ∈ l, f a = some (g a)) → l.filterMap f = l.map g := by
  intro l
  induction l with
  | nil => intro _; rfl
  | cons a rest ih =>
    intro h
    rw [List.filterMap_cons, h a (List.mem_cons_self a rest),
      ih (fun b hb => h b (List.mem_cons_of_mem a hb)), List.map_cons]

theorem mem_upsertSend {q : DKey × SendRec} {l : List (DKey × SendRec)} {k : DKey}
    {v : SendRec} (h : q ∈ upsertSend l k v) : q.2 = v ∨ q ∈ l := by
  unfold upsertSend at h
  split at h
  · rcases List.mem_map.mp h with ⟨p, hp, hq⟩
    by_cases hk : p.1 = k
    · simp only [if_pos hk] at hq
      exact Or.inl (by rw [← hq])
    · simp only [if_neg hk] at hq
      exact Or.inr (hq ▸ hp)
  · rcases List.mem_append.mp h with h1 | h1
    · exact Or.inr h1
    · simp only [List.mem_singleton] at h1
      exact Or.inl (by rw [h1])

theorem mem_foldl_upsert {s : SendRec} :
    ∀ {l : List SendRec} {acc : List (DKey × SendRec)},
      (s ∈ ((l.foldl (fun acc x => upsertSend acc (dedupKey x) x) acc).map (·.2))) →
      s ∈ acc.map (·.2) ∨ s ∈ l := by
  intro l
  induction l with
  | nil => intro acc h; exact Or.inl h
  | cons x rest ih =>
    intro acc h
    rw [List.foldl_cons] at h
    rcases ih h with h1 | h1
    · rcases List.mem_map.mp h1 with ⟨q, hq, hs⟩
      rcases mem_upsertSend hq with h2 | h2
      · refine Or.inr ?_
        rw [← hs, h2]
        exact List.mem_cons_self x rest
      · exact Or.inl (List.mem_map.mpr ⟨q, h2, hs⟩)
    · exact Or.inr (List.mem_cons_of_mem x h1)

/-- Every deduplicated send is one of the input sends. -/
theorem mem_uniqueSends {s : SendRec} {l : List SendRec} (h : s ∈ uniqueSends l) : s ∈ l := by
  unfold uniqueSends at h
  rcases mem_foldl_upsert h with h1 | h1
  · simp at h1
  · exact h1

/-- Every parsed row comes from an input send with the same send type,
key fields, email address and parsed date. -/
theorem mem_parsedRows {r : Row} {parse : String → Option Ts} {sends : List SendRec}
    (h : r ∈ parsedRows parse sends) :
    ∃ s ∈ sends, ∃ t : Ts, parse s.activityDate = some t ∧ r = mkRow s t := by
  unfold parsedRows at h
  rcases List.mem_filterMap.mp h with ⟨s, hs, hmap⟩
  rcases Option.map_eq_some'.mp hmap with ⟨t, ht, hr⟩
  exact ⟨s, (List.mem_filter.mp (mem_uniqueSends hs)).1, t, ht, hr.symm⟩

theorem mem_datedRows {r : Row} {parse : String → Option Ts} {day : Int}
    {sends : List SendRec} (h : r ∈ datedRows parse day sends) :
    r ∈ parsedRows parse sends ∧ r.activityDateParsed.day = day := by
  unfold datedRows at h
  have := List.mem_filter.mp h
  exact ⟨this.1, of_decide_eq_true this.2⟩

/-- The `(assetId, contactId, emailSendType)` skeleton of a row: the
fields the joins and the forward logic key on, which every later stage
of the pipeline preserves row-wise. -/
def skel (r : Row) : String × String × String :=
  (r.assetId_str, r.contactId_str, r.emailSendType)

theorem mem_snd_of_mem_enum {α : Type} {p : Nat × α} {l : List α} (h : p ∈ l.enum) :
    p.2 ∈ l := by
  have : p.2 ∈ l.enum.map Prod.snd := List.mem_map_of_mem Prod.snd h
  simpa [List.enum_map_snd] using this

theorem skel_mergeBB {r : Row} {bbs : List BBRec} {rows : List Row}
    (h : r ∈ mergeBB bbs rows) : ∃ x ∈ rows, skel r = skel x := by
  unfold mergeBB at h
  split at h
  · exact ⟨r, h, rfl⟩
  · rcases List.mem_map.mp h with ⟨x, hx, hr⟩
    refine ⟨x, hx, ?_⟩
    rw [← hr]
    split <;> rfl

theorem skel_mergeClicks {r : Row} {clicks : List ClickRec} {rows : List Row}
    (h : r ∈ mergeClicks clicks rows) : ∃ x ∈ rows, skel r = skel x := by
  unfold mergeClicks at h
  split at h
  · exact ⟨r, h, rfl⟩
  · rcases List.mem_map.mp h with ⟨p, hp, hr⟩
    have hsort := mem_snd_of_mem_enum hp
    rcases List.mem_map.mp (mem_sortBy.mp hsort) with ⟨x, hx, hpx⟩
    refine ⟨x, hx, ?_⟩
    rw [← hr]
    split
    · rw [← hpx]; rfl
    · rw [← hpx]; rfl

theorem skel_assignOpens {r : Row} {rows : List Row} (h : r ∈ assignOpens rows) :
    ∃ x ∈ rows, skel r = skel x := by
  simp only [assignOpens] at h
  rcases List.mem_map.mp h with ⟨p, hp, hr⟩
  have hx := mem_snd_of_mem_enum hp
  refine ⟨p.2, hx, ?_⟩
  rw [← hr]
  split
  · rfl
  · split <;> rfl

theorem skel_mergeOpens {r : Row} {parse : String → Option Ts} {opens : List OpenRec}
    {rows : List Row} (h : r ∈ mergeOpens parse opens rows) : ∃ x ∈ rows, skel r = skel x := by
  unfold mergeOpens at h
  split at h
  · exact ⟨r, h, rfl⟩
  · rcases skel_assignOpens h with ⟨y, hy, hskel⟩
    rcases List.mem_map.mp (mem_sortBy.mp hy) with ⟨x, hx, hyx⟩
    refine ⟨x, hx, ?_⟩
    rw [hskel, ← hyx]
    rfl

theorem skel_preForwardRows {r : Row} {cfg : Cfg} {env : Env} {inp : Inputs}
    {dated : List Row} (h : r ∈ preForwardRows cfg env inp dated) :
    ∃ x ∈ dated, skel r = skel x := by
  unfold preForwardRows at h
  rcases skel_mergeOpens (List.mem_filter.mp h).1 with ⟨y, hy, h1⟩
  rcases skel_mergeClicks hy with ⟨z, hz, h2⟩
  rcases skel_mergeBB hz with ⟨x, hx, h3⟩
  exact ⟨x, hx, by rw [h1, h2, h3]⟩

/-- Under the bulk export's filter `Activity.Type = 'EmailSend'`
(`bulk_email_send.py` lines 57 and 175), every pre-forward row is typed
`EmailSend`. -/
theorem type_rows4 {cfg : Cfg} {env : Env} {inp : Inputs} {day : Int} {r : Row}
    (hS : ∀ s ∈ inp.emailSends, s.emailSendType = "EmailSend")
    (h : r ∈ rows4Of cfg env inp (datedRows env.parseTs day inp.emailSends)) :
    r.emailSendType = "EmailSend" := by
  rcases skel_preForwardRows h with ⟨x, hx, hskel⟩
  rcases mem_parsedRows (mem_datedRows hx).1 with ⟨s, hs, t, _, hxs⟩
  have : r.emailSendType = x.emailSendType := congrArg (fun q => q.2.2) hskel
  rw [this, hxs]
  exact hS s hs

/-- What membership in the forward candidate set gives: the campaign had
a send on the target date, the key has activity in the campaign-restricted
aggregates, and the key is not a sent pair. -/
theorem mem_forwardContacts {p : String × String} {cws : List String}
    {sp : List (String × String)} {opens : List OpenRec} {clicks : List ClickRec}
    (h : p ∈ forwardContacts cws sp opens clicks) :
    p.1 ∈ cws ∧
      (0 < openCount (opensFiltered cws opens) p ∨
       0 < clickCount (clicksFiltered cws clicks) p) ∧ p ∉ sp := by
  unfold forwardContacts at h
  have h1 := List.mem_filter.mp h
  have hnotsp : p ∉ sp := by
    have h2 := h1.2
    simp only [Bool.not_eq_true', decide_eq_false_iff_not] at h2
    exact h2
  rcases List.mem_append.mp (mem_pyset.mp h1.1) with h3 | h3
  · rcases List.mem_map.mp h3 with ⟨o, ho, hk⟩
    have hof := List.mem_filter.mp ho
    refine ⟨?_, Or.inl ?_, hnotsp⟩
    · have ha : o.assetId ∈ cws := of_decide_eq_true hof.2
      have : p.1 = o.assetId := by rw [← hk]; rfl
      rw [this]; exact ha
    · unfold openCount
      have hmem : o ∈ (opensFiltered cws opens).filter (fun o2 => decide (openKeyOf o2 = p)) :=
        List.mem_filter.mpr ⟨ho, by simp [hk]⟩
      exact List.length_pos.mpr (List.ne_nil_of_mem hmem)
  · rcases List.mem_map.mp h3 with ⟨c, hc, hk⟩
    have hcf := List.mem_filter.mp hc
    refine ⟨?_, Or.inr ?_, hnotsp⟩
    · have ha : c.assetId ∈ cws := of_decide_eq_true hcf.2
      have : p.1 = c.assetId := by rw [← hk]; rfl
      rw [this]; exact ha
    · unfold clickCount
      have hmem : c ∈ (clicksFiltered cws clicks).filter (fun c2 => decide (clickKeyOf c2 = p)) :=
        List.mem_filter.mpr ⟨hc, by simp [hk]⟩
      exact List.length_pos.mpr (List.ne_nil_of_mem hmem)

/-- Neither guard of the forward materialization loop ever fires on the
candidate set the source feeds in: every candidate key becomes exactly
one synthetic row, so the materialized keys are exactly the candidate
set. -/
theorem forwardRows_map_rowKey (assetsF : List AssetRec)
    (lookupA : List (String × ContactInfo)) (rows4 : List Row) (cws : List String)
    (sp : List (String × String)) (opens : List OpenRec) (clicks : List ClickRec) :
    (forwardRows assetsF lookupA rows4 cws opens clicks
        (forwardContacts cws sp opens clicks)).map rowKey =
      forwardContacts cws sp opens clicks := by
  unfold forwardRows
  rw [filterMap_eq_map_of_some
    (g := fun p => mkForwardRow assetsF lookupA rows4 p
      (openCount (opensFiltered cws opens) p) (clickCount (clicksFiltered cws clicks) p))]
  · rw [List.map_map]
    have hcomp : (rowKey ∘ fun p => mkForwardRow assetsF lookupA rows4 p
        (openCount (opensFiltered cws opens) p)
        (clickCount (clicksFiltered cws clicks) p)) = id :=
      funext fun p => rfl
    rw [hcomp, List.map_id]
  · intro p hp
    rcases mem_forwardContacts hp with ⟨hcws, hcnt, _⟩
    have hg1 : (!(decide (p.1 ∈ cws))) = false := by simp [hcws]
    rw [hg1]
    simp only [Bool.false_eq_true, if_false]
    rw [if_neg]
    omega

/-- Unfolding the abort structure of `generate_daily_report`. -/
theorem generate_eq_some {cfg : Cfg} {env : Env} {inp : Inputs} {day : Int}
    {out : List Row} (h : generate_daily_report cfg env inp day = some out) :
    out = reportRows cfg env inp (datedRows env.parseTs day inp.emailSends) := by
  unfold generate_daily_report at h
  split at h
  · cases h
  · split at h
    · cases h
    · split at h
      · cases h
      · exact (Option.some.inj h).symm

/-- Membership in the filtered row set implies membership before the
filters, and for a forward row the guarantees of the incomplete-forward
filter (line 933): a nonempty email address and some activity. -/
theorem mem_filterRows {cfg : Cfg} {l : List Row} {x : Row} (h : x ∈ filterRows cfg l) :
    x ∈ l ∧ (x.emailSendType = "EmailForward" →
      x.emailAddress ≠ "" ∧ (x.total_opens ≠ 0 ∨ x.total_clicks ≠ 0)) := by
  simp only [filterRows] at h
  have h4 := List.mem_filter.mp h
  have h3 := List.mem_filter.mp h4.1
  have h2 := List.mem_filter.mp h3.1
  have h1 := List.mem_filter.mp h2.1
  refine ⟨h1.1, ?_⟩
  intro hf
  have hb := h3.2
  simp only [hf, Bool.not_eq_true', Bool.and_eq_false_iff, Bool.or_eq_false_iff,
    decide_eq_false_iff_not] at hb
  rcases hb with hb | hb
  · exact absurd trivial hb
  · refine ⟨hb.1, ?_⟩
    rcases hb.2 with hcl | hcl
    · exact Or.inl hcl
    · exact Or.inr hcl

theorem filterRows_sublist (cfg : Cfg) (l : List Row) : (filterRows cfg l).Sublist l := by
  simp only [filterRows]
  exact ((List.filter_sublist _).trans ((List.filter_sublist _).trans
    ((List.filter_sublist _).trans (List.filter_sublist _))))

/-- The per-row tail of the pipeline touches neither the key fields nor
the send type. -/
theorem finalizeRow_skel (cfg : Cfg) (env : Env) (inp : Inputs) (dated : List Row)
    (r : Row) : skel (finalizeRow cfg env inp dated r) = skel r := rfl

theorem applyUserRow_skel (aum : List (String × String)) (campaigns : List CampaignRec)
    (users : List UserRec) (r : Row) : skel (applyUserRow aum campaigns users r) = skel r := rfl

/-- `Total Sends` of a final row, in terms of its own send type
(lines 981): 0 for forwards, 1 otherwise. -/
theorem finalizeRow_totalSends (cfg : Cfg) (env : Env) (inp : Inputs) (dated : List Row)
    (r : Row) :
    (finalizeRow cfg env inp dated r).totalSends =
      if isFwdType (finalizeRow cfg env inp dated r).emailSendType then 0 else 1 := rfl

/-- `Total Delivered` of a final row (lines 982–985). -/
theorem finalizeRow_totalDelivered (cfg : Cfg) (env : Env) (inp : Inputs)
    (dated : List Row) (r : Row) :
    (finalizeRow cfg env inp dated r).totalDelivered =
      if isFwdType (finalizeRow cfg env inp dated r).emailSendType then 0
      else if r.total_bb = 0 then 1 else 0 := rfl

/-- The `Unique Open Rate` of a final row, expressed through the same
row's own columns (lines 1020–1024). -/
theorem finalizeRow_uniqueOpenRate (cfg : Cfg) (env : Env) (inp : Inputs)
    (dated : List Row) (r : Row) :
    (finalizeRow cfg env inp dated r).uniqueOpenRate =
      if isFwdType (finalizeRow cfg env inp dated r).emailSendType
         || decide ((finalizeRow cfg env inp dated r).totalDelivered = 0) then 0
      else ((finalizeRow cfg env inp dated r).uniqueOpens : ℚ)
        / ((finalizeRow cfg env inp dated r).totalDelivered : ℚ) * 100 := rfl

/-- The email address written for a row: the case-restored address of
lines 972–975, lower-cased again at line 1088. -/
theorem finalizeRow_emailAddress (cfg : Cfg) (env : Env) (inp : Inputs) (dated : List Row)
    (r : Row) :
    (finalizeRow cfg env inp dated r).emailAddress =
      str_lower (get_proper_cased_email (lookupAOf cfg env inp dated)
        r.contactId_str r.emailAddress) := rfl

theorem get_proper_cased_ne_empty {lookupA : List (String × ContactInfo)}
    {cid em : String} (h : em ≠ "") : get_proper_cased_email lookupA cid em ≠ "" := by
  simp only [get_proper_cased_email]
  split
  · next hcond => exact hcond.1
  · exact h

/-- Every report row is the finalization of a row surviving the
exclusion filters. -/
theorem mem_out {cfg : Cfg} {env : Env} {inp : Inputs} {day : Int} {out : List Row}
    {r : Row} (h : generate_daily_report cfg env inp day = some out) (hr : r ∈ out) :
    ∃ x ∈ rows7Of cfg env inp (datedRows env.parseTs day inp.emailSends),
      r = finalizeRow cfg env inp (datedRows env.parseTs day inp.emailSends) x := by
  rw [generate_eq_some h] at hr
  unfold reportRows at hr
  rcases List.mem_map.mp hr with ⟨x, hx, hfx⟩
  exact ⟨x, hx, hfx.symm⟩

/-- Every report row traces back to a pre-filter row (a date-filtered
send row or a synthetic forward row) with the same skeleton. -/
theorem out_to_rows5 {cfg : Cfg} {env : Env} {inp : Inputs} {day : Int} {out : List Row}
    {r : Row} (h : generate_daily_report cfg env inp day = some out) (hr : r ∈ out) :
    ∃ y ∈ rows5Of cfg env inp (datedRows env.parseTs day inp.emailSends), skel r = skel y := by
  rcases mem_out h hr with ⟨x, hx7, hxf⟩
  have hx6 : x ∈ rows6Of cfg env inp (datedRows env.parseTs day inp.emailSends) :=
    (filterRows_sublist cfg _).subset hx7
  rcases List.mem_map.mp hx6 with ⟨y, hy, hyx⟩
  refine ⟨y, hy, ?_⟩
  rw [hxf, finalizeRow_skel, ← hyx, applyUserRow_skel]

/-- A forward-typed report row's key is a forward candidate (under the
export guarantee that every fetched send activity is typed
`EmailSend`). -/
theorem out_forward_key {cfg : Cfg} {env : Env} {inp : Inputs} {day : Int}
    {out : List Row} {r : Row} (h : generate_daily_report cfg env inp day = some out)
    (hS : ∀ s ∈ inp.emailSends, s.emailSendType = "EmailSend") (hr : r ∈ out)
    (hf : r.emailSendType = "EmailForward") :
    rowKey r ∈ fwdOf cfg env inp (datedRows env.parseTs day inp.emailSends) := by
  rcases out_to_rows5 h hr with ⟨y, hy, hskel⟩
  have hkey : rowKey r = rowKey y := by
    have h1 : (skel r).1 = (skel y).1 := congrArg (·.1) hskel
    have h2 : (skel r).2.1 = (skel y).2.1 := congrArg (·.2.1) hskel
    unfold rowKey
    unfold skel at h1 h2
    rw [Prod.ext_iff]
    exact ⟨h1, h2⟩
  have htype : r.emailSendType = y.emailSendType := congrArg (·.2.2) hskel
  rcases List.mem_append.mp hy with h4 | h4
  · exfalso
    have hsend : r.emailSendType = "EmailSend" := htype.trans (type_rows4 hS h4)
    rw [hf] at hsend
    exact absurd hsend (by decide)
  · have hmap : rowKey y ∈ (fwdRowsOf cfg env inp
        (datedRows env.parseTs day inp.emailSends)).map rowKey :=
      List.mem_map_of_mem rowKey h4
    rw [hkey]
    have hmr := forwardRows_map_rowKey (assetsFOf cfg inp)
      (lookupAOf cfg env inp (datedRows env.parseTs day inp.emailSends))
      (rows4Of cfg env inp (datedRows env.parseTs day inp.emailSends))
      (cwsOf cfg env inp (datedRows env.parseTs day inp.emailSends))
      ((rows4Of cfg env inp (datedRows env.parseTs day inp.emailSends)).map rowKey)
      inp.emailOpens inp.emailClickthroughs
    unfold fwdRowsOf fwdOf at hmap
    rw [hmr] at hmap
    unfold fwdOf
    exact hmap

/-! ### Poll- and download-loop lemmas -/

/-- An observed `error` status (with no earlier `success`) makes the
activity poll fail. -/
theorem pollActivityAux_error {st : Nat → String} :
    ∀ {n a k : Nat}, a ≤ k → k < a + n → st k = "error" →
      (∀ j, a ≤ j → j ≤ k → st j ≠ "success") → pollActivityAux st a n = false := by
  intro n
  induction n with
  | zero => intro a k h1 h2 _ _; omega
  | succ m ih =>
    intro a k h1 h2 he hs
    unfold pollActivityAux
    rw [if_neg (hs a le_rfl h1)]
    by_cases hae : st a = "error"
    · rw [if_pos hae]
    · rw [if_neg hae]
      have hak : a ≠ k := fun hc => hae (hc ▸ he)
      exact ih (by omega) (by omega) he (fun j hj1 hj2 => hs j (by omega) hj2)

/-- Exhausting the attempt bound without a `success` makes the activity
poll fail. -/
theorem pollActivityAux_timeout {st : Nat → String} :
    ∀ {n a : Nat}, (∀ k, a ≤ k → k < a + n → st k ≠ "success") →
      pollActivityAux st a n = false := by
  intro n
  induction n with
  | zero => intro a _; rfl
  | succ m ih =>
    intro a hs
    unfold pollActivityAux
    rw [if_neg (hs a le_rfl (by omega))]
    by_cases hae : st a = "error"
    · rw [if_pos hae]
    · rw [if_neg hae]
      exact ih (fun k hk1 hk2 => hs k (by omega) (by omega))

/-- Exhausting the attempt bound without a `success` makes the
bounceback poll fail (the only way it can fail: `error` is not
special-cased there). -/
theorem pollBBAux_timeout {st : Nat → String} :
    ∀ {n a : Nat}, (∀ k, a ≤ k → k < a + n → st k ≠ "success") →
      pollBBAux st a n = false := by
  intro n
  induction n with
  | zero => intro a _; rfl
  | succ m ih =>
    intro a hs
    unfold pollBBAux
    rw [if_neg (hs a le_rfl (by omega))]
    exact ih (fun k hk1 hk2 => hs k (by omega) (by omega))

/-- The activity download loop stops at the first failed page and keeps
everything accumulated before it. -/
theorem downloadActivityAux_accum {α : Type} :
    ∀ (good : List (List α)) (acc : List α) (rest : List (PageResp α)),
      downloadActivityAux acc
        ((good.map (fun items => PageResp.page items true)) ++ PageResp.httpFail :: rest) =
      acc ++ good.flatten := by
  intro good
  induction good with
  | nil => intro acc rest; simp [downloadActivityAux]
  | cons items more ih =>
    intro acc rest
    simp only [List.map_cons, List.cons_append, downloadActivityAux, if_pos,
      List.flatten_cons, List.append_eq]
    rw [ih (acc ++ items) rest, List.append_assoc]

/-- Same for the bounceback download loop, when every page before the
failure is a full page. -/
theorem downloadBBAux_accum {α : Type} {limit : Nat} :
    ∀ (good : List (List α)), (∀ items ∈ good, ¬items.length < limit) →
      ∀ (acc : List α) (rest : List (Option (List α))),
        downloadBBAux limit acc ((good.map some) ++ none :: rest) = acc ++ good.flatten := by
  intro good
  induction good with
  | nil => intro _ acc rest; simp [downloadBBAux]
  | cons items more ih =>
    intro hfull acc rest
    simp only [List.map_cons, List.cons_append, downloadBBAux, List.flatten_cons,
      List.append_eq]
    rw [if_neg (hfull items (List.mem_cons_self items more))]
    rw [ih (fun x hx => hfull x (List.mem_cons_of_mem items hx)) (acc ++ items) rest,
      List.append_assoc]

/-! ### The OData page-cap bound -/

theorem fetchDataAux_bound {α : Type} {pages : Nat → Option (List α)} {ps mp : Nat}
    (h2 : ∀ n l, pages n = some l → l.length ≤ ps) :
    ∀ (fuel : Nat) (acc : List α) (page : Nat), 1 ≤ page → page ≤ mp → mp - page ≤ fuel →
      acc.length ≤ (page - 1) * ps →
      (fetchDataAux pages ps mp acc page).length ≤ mp * ps := by
  intro fuel
  induction fuel with
  | zero =>
    intro acc page h1 hmp hf hacc
    unfold fetchDataAux
    cases hp : pages page with
    | none =>
      exact hacc.trans (Nat.mul_le_mul_right ps (by omega))
    | some elements =>
      simp only []
      split
      · exact hacc.trans (Nat.mul_le_mul_right ps (by omega))
      · have hpage : mp ≤ page := by omega
        rw [dif_pos hpage]
        have he := h2 page elements hp
        rw [List.length_append]
        calc acc.length + elements.length ≤ (page - 1) * ps + ps := by omega
          _ = page * ps := by cases page with
            | zero => omega
            | succ q => simp [Nat.succ_mul, Nat.succ_sub_one]
          _ ≤ mp * ps := Nat.mul_le_mul_right ps hmp
  | succ m ih =>
    intro acc page h1 hmp hf hacc
    unfold fetchDataAux
    cases hp : pages page with
    | none =>
      exact hacc.trans (Nat.mul_le_mul_right ps (by omega))
    | some elements =>
      simp only []
      split
      · exact hacc.trans (Nat.mul_le_mul_right ps (by omega))
      · have he := h2 page elements hp
        have hstep : acc.length + elements.length ≤ page * ps := by
          have : (page - 1) * ps + ps = page * ps := by cases page with
            | zero => omega
            | succ q => simp [Nat.succ_mul, Nat.succ_sub_one]
          omega
        by_cases hpage : mp ≤ page
        · rw [dif_pos hpage]
          rw [List.length_append]
          exact hstep.trans (Nat.mul_le_mul_right ps (by omega))
        · rw [dif_neg hpage]
          split
          · rw [List.length_append]
            exact hstep.trans (Nat.mul_le_mul_right ps (by omega))
          · exact ih (acc ++ elements) (page + 1) (by omega) (by omega) (by omega)
              (by rw [List.length_append]; simpa using hstep)

/-! ### Concrete scenarios used by counterexamples and witnesses -/

/-- A date parser for the test scenarios: `d1` is the target day 1,
`t1`/`t2` are open timestamps on that day. -/
def parseX : String → Option Ts := fun s =>
  if s = "d1" then some ⟨1, 0⟩
  else if s = "t1" then some ⟨1, 1⟩
  else if s = "t2" then some ⟨1, 2⟩
  else none

def cfgX : Cfg := ⟨"@mailinator.com", ["spam@x.com"], ["17056", "17076"]⟩

/-- One ordinary send of asset 1 to contact c1 on the target day. -/
def sendX : SendRec :=
  ⟨"1", "c1", "EmailSend", "d1", "10", "e1", "a@b.com", "A1", "S1", "", "", "", "", ""⟩

/-- Empty cache, failing live fetch. -/
def envX0 : Env := ⟨parseX, [], fun _ => []⟩

/-- Two send activities to the same (asset, contact) with distinct vendor
`externalId`s. -/
def inpC4 : Inputs := ⟨[sendX, { sendX with externalId := "e2" }], [], [], [], [], [], []⟩

def outC4 : List Row := (generate_daily_report cfgX envX0 inpC4 1).getD []

/-- A cache that resolves the forward contact c2 with a case-carrying
address. -/
def envFull : Env := ⟨parseX, [("c2", ⟨"F@Y.com", "HP UK", "", "", "", ""⟩)], fun _ => []⟩

/-- One send plus an open by the recipient and an open by a
never-sent-to contact (a forward candidate). -/
def inpFull : Inputs :=
  ⟨[sendX], [], [], [⟨"1", "c1", "t1", ""⟩, ⟨"1", "c2", "t2", ""⟩], [], [], []⟩

def outFull : List Row := (generate_daily_report cfgX envFull inpFull 1).getD []

/-- Same scenario but contact c2 is absent from the cache and the live
fetch resolves nothing. -/
def inpMiss : Inputs := ⟨[sendX], [], [], [⟨"1", "c2", "t2", ""⟩], [], [], []⟩

def outMiss : List Row := (generate_daily_report cfgX envX0 inpMiss 1).getD []

/-- One send whose contact is nowhere resolvable. -/
def inpKeep : Inputs := ⟨[sendX], [], [], [], [], [], []⟩

/-- Cache holds the case-correct address for c1; the bulk stream carries
the lower-cased one. -/
def envC8 : Env := ⟨parseX, [("c1", ⟨"John@X.com", "", "", "", "", ""⟩)], fun _ => []⟩

def inpC8 : Inputs := ⟨[{ sendX with emailAddress := "john@x.com" }], [], [], [], [], [], []⟩

def outC8 : List Row := (generate_daily_report cfgX envC8 inpC8 1).getD []

/-! ### The claims -/

/-- Claim C3: in the bounceback aggregation every per-key hard, soft and
total count is clipped to at most 1, whatever the input stream; and five
hard-bounce records for one `(assetId, contactId)` yield a hard count of
exactly 1 (with soft 0 and total 1). -/
theorem C3_bounce_cap :
    (∀ (bbs : List BBRec) (e : (String × String) × Nat × Nat × Nat), e ∈ bbCounts bbs →
      e.2.1 ≤ 1 ∧ e.2.2.1 ≤ 1 ∧ e.2.2.2 ≤ 1)
    ∧ bbCounts (List.replicate 5 ⟨"1", "A", some true⟩) = [(("1", "A"), 1, 0, 1)] := by
  constructor
  · intro bbs e he
    rcases List.mem_map.mp he with ⟨k, _, hk⟩
    rw [← hk]
    exact ⟨Nat.min_le_right _ 1, Nat.min_le_right _ 1, Nat.min_le_right _ 1⟩
  · decide

/-- Witness for C3 at the five-hard-bounces input. -/
theorem C3_bounce_cap_witness :
    ((("1", "A"), 1, 0, 1) ∈ bbCounts (List.replicate 5 (⟨"1", "A", some true⟩ : BBRec)))
    ∧ ((1 : Nat) ≤ 1 ∧ (0 : Nat) ≤ 1 ∧ (1 : Nat) ≤ 1) :=
  ⟨by decide, C3_bounce_cap.1 (List.replicate 5 ⟨"1", "A", some true⟩)
    ((("1", "A"), 1, 0, 1)) (by decide)⟩

/-- Claim C5: when no send's parsed date equals the target date,
`generate_daily_report` aborts with `None` (and the CSV write is never
reached). -/
theorem C5_abort_no_sends (cfg : Cfg) (env : Env) (inp : Inputs) (day : Int)
    (h : inp.emailSends.filter (fun s =>
      match env.parseTs s.activityDate with
      | some t => decide (t.day = day)
      | none => false) = []) :
    generate_daily_report cfg env inp day = none := by
  have hdated : datedRows env.parseTs day inp.emailSends = [] := by
    rw [datedRows, List.filter_eq_nil_iff]
    intro r hr
    rcases mem_parsedRows hr with ⟨s, hs, t, ht, hrs⟩
    have hpred := List.filter_eq_nil_iff.mp h s hs
    rw [ht] at hpred
    rw [hrs]
    simpa [mkRow] using hpred
  unfold generate_daily_report
  rw [hdated]
  simp

/-- Witness for C5: two sends dated day 1, report requested for day 7. -/
theorem C5_abort_no_sends_witness :
    (inpC4.emailSends.filter (fun s =>
      match envX0.parseTs s.activityDate with
      | some t => decide (t.day = 7)
      | none => false) = [])
    ∧ generate_daily_report cfgX envX0 inpC4 7 = none :=
  ⟨by decide, C5_abort_no_sends cfgX envX0 inpC4 7 (by decide)⟩

/-- Claim C6 counterexample: in `fetch_bouncebacks_bulk` the vendor
reports `error` on the first poll, yet the fetch does not return an empty
list — the poll ignores `error`, a later `success` proceeds to download,
and one record comes back. -/
theorem C6_cex :
    fetch_bouncebacks_bulk (fun k => if k = 0 then "error" else "success") 2 5
      [some ["r1"]] = ["r1"]
    ∧ (fun k : Nat => if k = 0 then "error" else "success") 0 = "error"
    ∧ (["r1"] : List String) ≠ [] :=
  ⟨by decide, rfl, by decide⟩

/-- Claim C6 (amended): in `fetch_activity_export`, an observed `error`
status (no earlier `success`) or exhaustion of the attempt bound without
`success` makes the fetch return `[]`; in `fetch_bouncebacks_bulk` the
`error` status is not checked, and the fetch returns `[]` (only) when the
bound is exhausted without any `success`. -/
theorem C6_amended {α : Type} :
    (∀ (st : Nat → String) (N : Nat) (resps : List (PageResp α)) (k : Nat),
      k < N → st k = "error" → (∀ j, j ≤ k → st j ≠ "success") →
      fetch_activity_export st N resps = [])
    ∧ (∀ (st : Nat → String) (N : Nat) (resps : List (PageResp α)),
      (∀ k, k < N → st k ≠ "success") → fetch_activity_export st N resps = [])
    ∧ (∀ (st : Nat → String) (N limit : Nat) (resps : List (Option (List α))),
      (∀ k, k < N → st k ≠ "success") → fetch_bouncebacks_bulk st N limit resps = []) := by
  refine ⟨?_, ?_, ?_⟩
  · intro st N resps k hk he hs
    unfold fetch_activity_export
    rw [pollActivityAux_error (Nat.zero_le k) (by omega) he (fun j _ hj => hs j hj)]
    rfl
  · intro st N resps hs
    unfold fetch_activity_export
    rw [pollActivityAux_timeout (fun k _ hk => hs k (by omega))]
    rfl
  · intro st N limit resps hs
    unfold fetch_bouncebacks_bulk
    rw [pollBBAux_timeout (fun k _ hk => hs k (by omega))]
    rfl

/-- Witness for C6 at concrete poll sequences. -/
theorem C6_amended_witness :
    fetch_activity_export (fun _ => "error") 1 ([] : List (PageResp String)) = []
    ∧ fetch_activity_export (fun _ => "pending") 3 ([] : List (PageResp String)) = []
    ∧ fetch_bouncebacks_bulk (fun _ => "pending") 3 5 ([] : List (Option (List String))) = [] :=
  ⟨C6_amended.1 _ 1 [] 0 (by decide) rfl (fun j _ => by decide),
   C6_amended.2.1 _ 3 [] (fun k _ => by decide),
   C6_amended.2.2 _ 3 5 [] (fun k _ => by decide)⟩

/-- Claim C7 counterexample: a failed download page neither triggers a
retry nor empties the stream — the fetch returns the pages accumulated
before the failure (here `["a","b"]`, not `[]`), and a failure on the
very first page returns `[]` even though a retry would have found a
page. -/
theorem C7_cex :
    fetch_activity_export (fun _ => "success") 1
      [PageResp.page ["a", "b"] true, PageResp.httpFail] = ["a", "b"]
    ∧ fetch_activity_export (fun _ => "success") 1
      [PageResp.httpFail, PageResp.page ["a"] false] = ([] : List String)
    ∧ (["a", "b"] : List String) ≠ [] :=
  ⟨by decide, by decide, by decide⟩

/-- Claim C7 (amended): when a download page fails (non-200 or unparsable
body), pagination stops immediately — no retry — and the stream's result
is exactly the concatenation of the pages downloaded before the failure. -/
theorem C7_amended {α : Type} :
    (∀ (st : Nat → String) (N : Nat) (good : List (List α)) (rest : List (PageResp α)),
      pollActivityAux st 0 N = true →
      fetch_activity_export st N
        ((good.map (fun items => PageResp.page items true)) ++ PageResp.httpFail :: rest) =
      good.flatten)
    ∧ (∀ (limit : Nat) (good : List (List α)) (rest : List (Option (List α))),
      (∀ items ∈ good, ¬items.length < limit) →
      downloadBBPages limit ((good.map some) ++ none :: rest) = good.flatten) := by
  constructor
  · intro st N good rest hpoll
    unfold fetch_activity_export
    rw [hpoll]
    simp only [if_pos]
    unfold downloadActivityPages
    rw [downloadActivityAux_accum]
    rfl
  · intro limit good rest hfull
    unfold downloadBBPages
    rw [downloadBBAux_accum good hfull]
    rfl

/-- Witness for C7 at one full page before the failure. -/
theorem C7_amended_witness :
    fetch_activity_export (fun _ => "success") 1
      ([[ "a" ]].map (fun items => PageResp.page items true) ++
        PageResp.httpFail :: ([] : List (PageResp String))) = [["a"]].flatten
    ∧ downloadBBPages 1 ([["x", "y"]].map some ++ none :: ([] : List (Option (List String)))) =
      [["x", "y"]].flatten :=
  ⟨C7_amended.1 _ 1 [["a"]] [] (by decide),
   C7_amended.2 1 [["x", "y"]] [] (by decide)⟩

/-- Claim C10: the OData fetch loop terminates (it is modelled by a
recursion whose measure is the source's own loop bound) and returns at
most `API_MAX_PAGES * API_PAGE_SIZE` records whenever the server honours
the requested page size; with a server that always has more full pages,
pagination still stops at the page cap. -/
theorem C10_page_cap {α : Type} (pages : Nat → Option (List α)) (pageSize maxPages : Nat)
    (h1 : 1 ≤ maxPages) (h2 : ∀ n l, pages n = some l → l.length ≤ pageSize) :
    (fetch_data pages pageSize maxPages).length ≤ maxPages * pageSize
    ∧ (fetch_data (fun _ => some (List.replicate 3 "r")) 3 2).length = 2 * 3 := by
  constructor
  · unfold fetch_data
    exact fetchDataAux_bound h2 maxPages [] 1 le_rfl h1 (by omega) (by simp)
  · unfold fetch_data
    rw [fetchDataAux]
    norm_num
    rw [fetchDataAux]
    norm_num

/-- Witness for C10 at a concrete single-record server. -/
theorem C10_page_cap_witness :
    (fetch_data (fun _ => some ["r"]) 1 2).length ≤ 2 * 1
    ∧ (fetch_data (fun _ => some (List.replicate 3 "r")) 3 2).length = 2 * 3 :=
  C10_page_cap (fun _ => some ["r"]) 1 2 (by decide)
    (fun n l h => by cases h; decide)

/-- Claim C2: for every report row, the Unique Open Rate is
(unique opens / Total Delivered) · 100 for a real send with nonzero
Total Delivered, and 0 whenever the row is a forward or Total Delivered
is 0, regardless of the raw open count; in particular a row with
`Total Sends = 1`, `Total Delivered = 1`, `Unique Opens = 1` has rate
exactly 100. -/
theorem C2_unique_open_rate (cfg : Cfg) (env : Env) (inp : Inputs) (day : Int)
    (out : List Row) (h : generate_daily_report cfg env inp day = some out)
    (r : Row) (hr : r ∈ out) :
    (isFwdType r.emailSendType = false → r.totalDelivered ≠ 0 →
      r.uniqueOpenRate = (r.uniqueOpens : ℚ) / (r.totalDelivered : ℚ) * 100)
    ∧ ((isFwdType r.emailSendType = true ∨ r.totalDelivered = 0) → r.uniqueOpenRate = 0)
    ∧ (r.totalSends = 1 → r.totalDelivered = 1 → r.uniqueOpens = 1 →
      r.uniqueOpenRate = 100) := by
  rcases mem_out h hr with ⟨x, _, hrx⟩
  subst hrx
  refine ⟨?_, ?_, ?_⟩
  · intro hnf hTD
    rw [finalizeRow_uniqueOpenRate, hnf]
    simp [hTD]
  · intro hcond
    rw [finalizeRow_uniqueOpenRate]
    rcases hcond with hf | hTD
    · rw [hf]
      simp
    · simp [hTD]
  · intro hTS hTD huo
    rw [finalizeRow_totalSends] at hTS
    have hnf : isFwdType (finalizeRow cfg env inp
        (datedRows env.parseTs day inp.emailSends) x).emailSendType = false := by
      by_cases hf : isFwdType (finalizeRow cfg env inp
          (datedRows env.parseTs day inp.emailSends) x).emailSendType = true
      · rw [if_pos hf] at hTS
        cases hTS
      · revert hf
        cases isFwdType (finalizeRow cfg env inp
          (datedRows env.parseTs day inp.emailSends) x).emailSendType <;> simp
    rw [finalizeRow_uniqueOpenRate, hnf, hTD, huo]
    norm_num

/-- Witness for C2 at the send row of the `inpFull` scenario: one send,
one open, no bounce — rate exactly 100. -/
theorem C2_unique_open_rate_witness :
    (outFull.head (by decide)).totalSends = 1
    ∧ (outFull.head (by decide)).totalDelivered = 1
    ∧ (outFull.head (by decide)).uniqueOpens = 1
    ∧ (outFull.head (by decide)).uniqueOpenRate = 100 :=
  ⟨by decide, by decide, by decide,
    (C2_unique_open_rate cfgX envFull inpFull 1 outFull rfl (outFull.head (by decide))
      (List.head_mem _)).2.2 (by decide) (by decide) (by decide)⟩

/-- Claim C4 counterexample: two send activities to the same
`(assetId, contactId)` with distinct vendor `externalId`s both survive
deduplication (the dedup key is the `externalId`), so the generated
report holds two distinct rows with the same `(assetId, contactId)`
pair. -/
theorem C4_cex :
    (¬ outC4.Pairwise (fun a b => rowKey a ≠ rowKey b))
    ∧ outC4.map (·.externalId) = ["e1", "e2"]
    ∧ outC4.map rowKey = [("1", "c1"), ("1", "c1")] := by
  refine ⟨?_, by decide, by decide⟩
  intro hp
  have hmap : (outC4.map rowKey).Pairwise (· ≠ ·) := List.pairwise_map.mpr hp
  rw [(by decide : outC4.map rowKey = [("1", "c1"), ("1", "c1")])] at hmap
  rcases List.pairwise_cons.mp hmap with ⟨hfst, _⟩
  exact hfst _ (List.mem_singleton_self _) rfl

/-- Claim C4 (amended): within one generated report, the
`(assetId, contactId)` pair is unique across forward rows and no forward
row shares its pair with any other row; uniqueness across real-send rows
does not hold in general (two sends with distinct `externalId`s can share
a pair, as the counterexample shows). -/
theorem C4_amended (cfg : Cfg) (env : Env) (inp : Inputs) (day : Int) (out : List Row)
    (h : generate_daily_report cfg env inp day = some out)
    (hS : ∀ s ∈ inp.emailSends, s.emailSendType = "EmailSend") :
    out.Pairwise (fun a b =>
      (a.emailSendType = "EmailForward" ∨ b.emailSendType = "EmailForward") →
        rowKey a ≠ rowKey b) := by
  rw [generate_eq_some h]
  have hmapkeys : (fwdRowsOf cfg env inp (datedRows env.parseTs day inp.emailSends)).map rowKey
      = fwdOf cfg env inp (datedRows env.parseTs day inp.emailSends) := by
    unfold fwdRowsOf fwdOf
    exact forwardRows_map_rowKey _ _ _ _ _ _ _
  have h4t : ∀ z ∈ rows4Of cfg env inp (datedRows env.parseTs day inp.emailSends),
      z.emailSendType = "EmailSend" := fun z hz => type_rows4 hS hz
  have h5 : (rows5Of cfg env inp (datedRows env.parseTs day inp.emailSends)).Pairwise
      (fun a b => (a.emailSendType = "EmailForward" ∨ b.emailSendType = "EmailForward") →
        rowKey a ≠ rowKey b) := by
    unfold rows5Of
    rw [List.pairwise_append]
    refine ⟨?_, ?_, ?_⟩
    · exact List.pairwise_of_forall_mem_list (fun a ha b hb => by
        intro hor
        rw [h4t a ha, h4t b hb] at hor
        rcases hor with hx | hx <;> exact absurd hx (by decide))
    · have hnodup : (fwdOf cfg env inp (datedRows env.parseTs day inp.emailSends)).Pairwise
          (· ≠ ·) := by
        unfold fwdOf forwardContacts
        exact List.Pairwise.sublist (List.filter_sublist _) nodup_pyset
      rw [← hmapkeys] at hnodup
      have himp : ∀ {a b : Row}, rowKey a ≠ rowKey b →
          ((a.emailSendType = "EmailForward" ∨ b.emailSendType = "EmailForward") →
            rowKey a ≠ rowKey b) := fun hk _ => hk
      exact List.Pairwise.imp himp (List.pairwise_map.mp hnodup)
    · intro a ha b hb
      intro _ heq
      have hbk : rowKey b ∈ fwdOf cfg env inp (datedRows env.parseTs day inp.emailSends) := by
        rw [← hmapkeys]
        exact List.mem_map_of_mem rowKey hb
      have hnot := (mem_forwardContacts (by
        unfold fwdOf at hbk
        exact hbk)).2.2
      exact hnot (heq ▸ List.mem_map_of_mem rowKey ha)
  have h6 : (rows6Of cfg env inp (datedRows env.parseTs day inp.emailSends)).Pairwise
      (fun a b => (a.emailSendType = "EmailForward" ∨ b.emailSendType = "EmailForward") →
        rowKey a ≠ rowKey b) := by
    unfold rows6Of
    exact List.pairwise_map.mpr (List.Pairwise.imp (fun hab => hab) h5)
  have h7 := List.Pairwise.sublist (filterRows_sublist cfg _) h6
  unfold reportRows
  exact List.pairwise_map.mpr (List.Pairwise.imp (fun hab => hab) h7)

/-- Witness for C4 at the `inpFull` scenario (one send row, one forward
row, distinct pairs). -/
theorem C4_amended_witness :
    outFull.Pairwise (fun a b =>
      (a.emailSendType = "EmailForward" ∨ b.emailSendType = "EmailForward") →
        rowKey a ≠ rowKey b) :=
  C4_amended cfgX envFull inpFull 1 outFull rfl (by decide)

/-- Claim C1 counterexample: the key `("1", "c2")` is in the
campaign-restricted open aggregate, absent from the sent pairs, with a
nonzero open count (it is the forward candidate set), yet the final
report holds no row — in particular no forward row — for it: its contact
is unresolvable, so the synthetic row's email address is empty and the
incomplete-forward filter drops it. -/
theorem C1_cex :
    fwdOf cfgX envX0 inpMiss (datedRows envX0.parseTs 1 inpMiss.emailSends) = [("1", "c2")]
    ∧ outMiss.map rowKey = [("1", "c1")]
    ∧ (generate_daily_report cfgX envX0 inpMiss 1).map (fun l => l.map rowKey)
      = some [("1", "c1")] :=
  ⟨by decide, by decide, by decide⟩

/-- Claim C1 (amended): every `(assetId, contactId)` key of the
open-or-click aggregate restricted to campaigns with a send on the
target date, minus the sent pairs (each such key has a nonzero open or
click count), is materialized as exactly one forward row; a materialized
forward row reaches the final report only if it survives the
email-based exclusion and campaign-revalidation filters (witnessed
concretely by the third conjunct); and no forward row of the final
report has a key among the sent pairs. -/
theorem C1_forward_set (cfg : Cfg) (env : Env) (inp : Inputs) (day : Int) (out : List Row)
    (h : generate_daily_report cfg env inp day = some out)
    (hS : ∀ s ∈ inp.emailSends, s.emailSendType = "EmailSend") :
    ((fwdRowsOf cfg env inp (datedRows env.parseTs day inp.emailSends)).map rowKey
      = fwdOf cfg env inp (datedRows env.parseTs day inp.emailSends))
    ∧ (∀ r ∈ out, r.emailSendType = "EmailForward" →
        rowKey r ∉ (rows4Of cfg env inp (datedRows env.parseTs day inp.emailSends)).map rowKey)
    ∧ ((generate_daily_report cfgX envFull inpFull 1).map
        (fun l => l.map (fun r => (rowKey r, r.emailSendType)))
      = some [(("1", "c1"), "EmailSend"), (("1", "c2"), "EmailForward")]) := by
  refine ⟨?_, ?_, by decide⟩
  · unfold fwdRowsOf fwdOf
    exact forwardRows_map_rowKey _ _ _ _ _ _ _
  · intro r hr hf
    have hkey := out_forward_key h hS hr hf
    unfold fwdOf at hkey
    exact (mem_forwardContacts hkey).2.2

/-- Witness for C1 at the `inpFull` scenario. -/
theorem C1_forward_set_witness :
    ((fwdRowsOf cfgX envFull inpFull (datedRows envFull.parseTs 1 inpFull.emailSends)).map rowKey
      = fwdOf cfgX envFull inpFull (datedRows envFull.parseTs 1 inpFull.emailSends))
    ∧ rowKey (outFull.getLast (by decide)) ∉
        (rows4Of cfgX envFull inpFull (datedRows envFull.parseTs 1 inpFull.emailSends)).map
          rowKey := by
  have hc := C1_forward_set cfgX envFull inpFull 1 outFull rfl (by decide)
  exact ⟨hc.1, hc.2.1 _ (List.getLast_mem _) (by decide)⟩

/-- Claim C9 counterexample: the forward candidate `("1", "c2")` has a
contact that is neither cached nor resolvable by the live fetch; the
claim says the row still appears with empty attribute fields, but the
report drops it — only the send row remains. -/
theorem C9_cex :
    dlookup envX0.contactCache "c2" = none
    ∧ envX0.fetchContacts ["c2"] = []
    ∧ fwdOf cfgX envX0 inpMiss (datedRows envX0.parseTs 1 inpMiss.emailSends) = [("1", "c2")]
    ∧ outMiss.map (fun r => (r.contactId_str, r.emailSendType)) = [("c1", "EmailSend")] :=
  ⟨rfl, rfl, by decide, by decide⟩

/-- Claim C9 (amended): a forward row whose contact resolution yields an
empty email address is dropped by the incomplete-forward filter rather
than kept — every forward row of a generated report has a nonempty email
address; a real-send row, by contrast, is kept even when its contact is
nowhere resolvable, with its attribute fields taken from the send record
(second conjunct: empty country, row present). -/
theorem C9_missing_contact (cfg : Cfg) (env : Env) (inp : Inputs) (day : Int)
    (out : List Row) (h : generate_daily_report cfg env inp day = some out) :
    (∀ r ∈ out, r.emailSendType = "EmailForward" → r.emailAddress ≠ "")
    ∧ ((generate_daily_report cfgX envX0 inpKeep 1).map
        (fun l => l.map (fun r => (r.contactId_str, r.contact_country, r.emailSendType)))
      = some [("c1", "", "EmailSend")]) := by
  constructor
  · intro r hr hf
    rcases mem_out h hr with ⟨x, hx7, hrx⟩
    have hxf : x.emailSendType = "EmailForward" := by
      have htyp : r.emailSendType = x.emailSendType := by rw [hrx]; rfl
      rw [← htyp]
      exact hf
    have hne := ((mem_filterRows hx7).2 hxf).1
    rw [hrx, finalizeRow_emailAddress]
    exact str_lower_ne_empty (get_proper_cased_ne_empty hne)
  · decide

/-- Witness for C9 at the surviving forward row of `inpFull`. -/
theorem C9_missing_contact_witness :
    (outFull.getLast (by decide)).emailSendType = "EmailForward"
    ∧ (outFull.getLast (by decide)).emailAddress ≠ "" :=
  ⟨by decide,
    (C9_missing_contact cfgX envFull inpFull 1 outFull rfl).1 _ (List.getLast_mem _)
      (by decide)⟩

/-- Claim C8 (code bug): the cache holds the case-correct address
`John@X.com` for c1 and the row's upstream address lower-cases to the
same string, and `get_proper_cased_email` does substitute the cached
value — but the final report frame lower-cases the whole Email Address
column again (line 1088), so the written value is `john@x.com`, not the
cache's case-correct value. -/
theorem C8_case_restoration_lost :
    outC8.map (·.emailAddress) = ["john@x.com"]
    ∧ get_proper_cased_email (buildContactLookup envC8.contactCache inpC8.emailSends)
        "c1" "john@x.com" = "John@X.com"
    ∧ ("John@X.com" : String) ≠ "john@x.com" :=
  ⟨by decide, by decide, by decide⟩
